import Mathlib

/-!
Verification of the TeslaMCQTreehacks consensus inference pipeline.

We give a shallow embedding of the Python sources:
  * `extract_answers.py` — the Answer Extractor (`extract_answer_from_json`)
    and Gap Detector (`process_files`);
  * `three_times.py` — the Attempt Sampler (`process_question` plus the
    per-question combining loop of `main`);
  * `three_times_preview.py` — the Consensus Reasoner over multiple attempts
    (`reason_over_attempts` and the item-selection loop of `main`);
  * `reasoner.py` — the single-description Consensus Reasoner and its
    result-saving loop;
  * `fill_gaps.py` — the backfill run restricted to an allow-list.

Python strings are modelled as `List Char`; Python dicts with a fixed key
schema are modelled either as structures with `Option` fields or, where the
presence/absence of keys matters, as association lists.
-/

namespace Extract

/-- The open marker `<answer>` as a character list. -/
def tagOpen : List Char := "<answer>".data

/-- The close marker `</answer>` as a character list. -/
def tagClose : List Char := "</answer>".data

/-- The character class `[A-E]` of the regexes in `extract_answer_from_json`. -/
def isLabel (c : Char) : Bool :=
  c == 'A' || c == 'B' || c == 'C' || c == 'D' || c == 'E'

/-- The character class `[.\s]` of the first regex: a literal dot or Python
`\s` whitespace (space, tab, newline, carriage return, vertical tab, form
feed). -/
def isDotOrWs (c : Char) : Bool :=
  c == '.' || c == ' ' || c == '\t' || c == '\n' || c == '\r' ||
    c == '\x0b' || c == '\x0c'

/-- `hasCloseNoNL cs` holds when `cs = mid ++ tagClose ++ rest` for some `mid`
containing no newline: this is exactly when `.*?</answer>` can consume `cs`
(Python `.` does not match a newline). -/
def hasCloseNoNL : List Char → Bool
  | [] => false
  | c :: cs =>
    if tagClose.isPrefixOf (c :: cs) then true
    else if c == '\n' then false
    else hasCloseNoNL cs

/-- Whether the first regex `<answer>([A-E])[.\s].*?</answer>` matches
starting at the head of `cs`; on success, the captured label. -/
def matchPat1At (cs : List Char) : Option Char :=
  if tagOpen.isPrefixOf cs then
    match cs.drop 8 with
    | lab :: d :: rest =>
      if isLabel lab && isDotOrWs d && hasCloseNoNL rest then some lab else none
    | _ => none
  else none

/-- Whether the second regex `<answer>([A-E])</answer>` matches starting at
the head of `cs`; on success, the captured label. -/
def matchPat2At (cs : List Char) : Option Char :=
  if tagOpen.isPrefixOf cs then
    match cs.drop 8 with
    | lab :: rest =>
      if isLabel lab && tagClose.isPrefixOf rest then some lab else none
    | _ => none
  else none

/-- `re.search` with the first regex: leftmost position at which the pattern
matches, returning the captured label. -/
def searchPat1 : List Char → Option Char
  | [] => none
  | c :: cs =>
    match matchPat1At (c :: cs) with
    | some lab => some lab
    | none => searchPat1 cs

/-- `re.search` with the second regex. -/
def searchPat2 : List Char → Option Char
  | [] => none
  | c :: cs =>
    match matchPat2At (c :: cs) with
    | some lab => some lab
    | none => searchPat2 cs

/-- A JSON record as read by `extract_answer_from_json`: only its `answer`
field matters (`json_content.get('answer', '')`). -/
structure JsonRecord where
  answer : List Char
deriving Repr, DecidableEq

/-- `extract_answer_from_json` from `extract_answers.py`: first try the
pattern with additional content, then the bare-letter pattern, else `None`. -/
def extract_answer_from_json (json_content : JsonRecord) : Option Char :=
  match searchPat1 json_content.answer with
  | some lab => some lab
  | none => searchPat2 json_content.answer

/-- The extractor on raw text (the body shared by both call sites). -/
def extractAnswer (s : List Char) : Option Char :=
  extract_answer_from_json ⟨s⟩

theorem matchPat1At_label {cs : List Char} {c : Char}
    (h : matchPat1At cs = some c) : isLabel c = true := by
  unfold matchPat1At at h
  split at h
  · rename_i hpre
    split at h
    · rename_i lab d rest heq
      split at h
      · rename_i hcond
        cases h
        exact (Bool.and_eq_true _ _ |>.mp ((Bool.and_eq_true _ _ |>.mp hcond).1)).1
      · exact absurd h (by simp)
    · exact absurd h (by simp)
  · exact absurd h (by simp)

theorem matchPat2At_label {cs : List Char} {c : Char}
    (h : matchPat2At cs = some c) : isLabel c = true := by
  unfold matchPat2At at h
  split at h
  · rename_i hpre
    split at h
    · rename_i lab rest heq
      split at h
      · rename_i hcond
        cases h
        exact (Bool.and_eq_true _ _ |>.mp hcond).1
      · exact absurd h (by simp)
    · exact absurd h (by simp)
  · exact absurd h (by simp)

theorem searchPat1_label : ∀ {cs : List Char} {c : Char},
    searchPat1 cs = some c → isLabel c = true := by
  intro cs
  induction cs with
  | nil => intro c h; simp [searchPat1] at h
  | cons a as ih =>
    intro c h
    unfold searchPat1 at h
    cases hm : matchPat1At (a :: as) with
    | some lab =>
      rw [hm] at h
      cases h
      exact matchPat1At_label hm
    | none =>
      rw [hm] at h
      exact ih h

theorem searchPat2_label : ∀ {cs : List Char} {c : Char},
    searchPat2 cs = some c → isLabel c = true := by
  intro cs
  induction cs with
  | nil => intro c h; simp [searchPat2] at h
  | cons a as ih =>
    intro c h
    unfold searchPat2 at h
    cases hm : matchPat2At (a :: as) with
    | some lab =>
      rw [hm] at h
      cases h
      exact matchPat2At_label hm
    | none =>
      rw [hm] at h
      exact ih h

/-- Any extracted label lies in the fixed set A–E. -/
theorem extract_label_in_set (j : JsonRecord) :
    extract_answer_from_json j = none ∨
      ∃ c, extract_answer_from_json j = some c ∧ isLabel c = true := by
  unfold extract_answer_from_json
  cases h1 : searchPat1 j.answer with
  | some lab => exact Or.inr ⟨lab, rfl, searchPat1_label h1⟩
  | none =>
    cases h2 : searchPat2 j.answer with
    | some lab => exact Or.inr ⟨lab, rfl, searchPat2_label h2⟩
    | none => exact Or.inl rfl

end Extract

namespace Extract

theorem isLabel_iff (c : Char) :
    isLabel c = true ↔ c = 'A' ∨ c = 'B' ∨ c = 'C' ∨ c = 'D' ∨ c = 'E' := by
  simp only [isLabel, Bool.or_eq_true, beq_iff_eq]
  tauto

theorem searchPat1_head {cs : List Char} {c : Char}
    (h : matchPat1At cs = some c) : searchPat1 cs = some c := by
  cases cs with
  | nil => simp [matchPat1At, tagOpen, List.isPrefixOf] at h
  | cons a as => unfold searchPat1; rw [h]

theorem hasCloseNoNL_of_prefix {cs : List Char}
    (h : tagClose.isPrefixOf cs = true) : hasCloseNoNL cs = true := by
  cases cs with
  | nil => exact absurd h (by decide)
  | cons a as =>
    rw [hasCloseNoNL]
    simp [h]

theorem hasCloseNoNL_append {mid : List Char} (rest : List Char)
    (h : '\n' ∉ mid) : hasCloseNoNL (mid ++ tagClose ++ rest) = true := by
  induction mid with
  | nil =>
    rw [List.nil_append]
    exact hasCloseNoNL_of_prefix
      (List.isPrefixOf_iff_prefix.mpr (List.prefix_append _ _))
  | cons a mid ih =>
    have ha : (a == '\n') = false :=
      beq_eq_false_iff_ne.mpr (fun hEq => h (hEq ▸ List.mem_cons_self a mid))
    have h' : '\n' ∉ mid := fun hm => h (List.mem_cons_of_mem a hm)
    show hasCloseNoNL (a :: (mid ++ tagClose ++ rest)) = true
    by_cases hp : tagClose.isPrefixOf (a :: (mid ++ tagClose ++ rest)) = true
    · exact hasCloseNoNL_of_prefix hp
    · rw [Bool.not_eq_true] at hp
      rw [hasCloseNoNL, hp, if_neg (by simp), ha, if_neg (by simp)]
      exact ih h'

theorem matchPat1At_form (lab d : Char) (tail : List Char)
    (hlab : isLabel lab = true) (hd : isDotOrWs d = true)
    (hcl : hasCloseNoNL tail = true) :
    matchPat1At (tagOpen ++ lab :: d :: tail) = some lab := by
  unfold matchPat1At
  rw [if_pos (List.isPrefixOf_iff_prefix.mpr (List.prefix_append _ _))]
  rw [show (8 : ℕ) = tagOpen.length from rfl, List.drop_left]
  simp [hlab, hd, hcl]

end Extract

/-- C1: the Answer Extractor returns C for `<answer>C</answer>` and for
`<answer>C. because of the stop sign</answer>`, absent for text with no
answer-tag pair, absent for `<answer>F</answer>` (F outside the label set),
and in every case the result is absent or one of the five symbols A–E; the
function is total (never raises). -/
theorem C1_extractor_examples_and_closed_label_set :
    Extract.extract_answer_from_json ⟨"<answer>C</answer>".data⟩ = some 'C' ∧
    Extract.extract_answer_from_json
      ⟨"<answer>C. because of the stop sign</answer>".data⟩ = some 'C' ∧
    Extract.extract_answer_from_json ⟨"no tags here".data⟩ = none ∧
    Extract.extract_answer_from_json ⟨"<answer>F</answer>".data⟩ = none ∧
    ∀ j : Extract.JsonRecord, Extract.extract_answer_from_json j = none ∨
      ∃ c, Extract.extract_answer_from_json j = some c ∧
        (c = 'A' ∨ c = 'B' ∨ c = 'C' ∨ c = 'D' ∨ c = 'E') := by
  refine ⟨by decide, by decide, by decide, by decide, fun j => ?_⟩
  rcases Extract.extract_label_in_set j with h | ⟨c, hc, hl⟩
  · exact Or.inl h
  · exact Or.inr ⟨c, hc, (Extract.isLabel_iff c).mp hl⟩

/-- C3 counterexample: the claim fails on two concrete inputs. For
`<answer>C, wrong</answer>` the label is followed by trailing explanatory
text, yet the extractor returns absent rather than C (the character after the
label must be a dot or whitespace, so the trailing content is not arbitrary).
For `<answer>A</answer> x <answer>B. y</answer>` the earliest marker pair in
the text has label A, yet the extractor returns B — the pattern with trailing
content is searched over the whole text before the bare pattern, so matching
is not first-match over marker pairs. -/
theorem C3_counterexample :
    Extract.extract_answer_from_json ⟨"<answer>C, wrong</answer>".data⟩ = none ∧
    Extract.extract_answer_from_json
      ⟨"<answer>A</answer> x <answer>B. y</answer>".data⟩ = some 'B' := by
  constructor
  · decide
  · decide

/-- C3 amended: the extractor accepts (a) the bare label alone between the
markers and (b) the label followed by a dot-or-whitespace character and then
trailing content containing no newline before the closing marker; the
trailing-content form, matched anywhere in the text, takes priority over the
bare form. -/
theorem C3_amended_extractor_forms :
    (∀ lab : Char, Extract.isLabel lab = true →
      Extract.extractAnswer (Extract.tagOpen ++ lab :: Extract.tagClose) =
        some lab) ∧
    (∀ (lab d : Char) (mid rest : List Char), Extract.isLabel lab = true →
      Extract.isDotOrWs d = true → '\n' ∉ mid →
      Extract.extractAnswer
        (Extract.tagOpen ++ lab :: d :: (mid ++ Extract.tagClose ++ rest)) =
          some lab) ∧
    (∀ (s : List Char) (c : Char), Extract.searchPat1 s = some c →
      Extract.extractAnswer s = some c) := by
  refine ⟨fun lab hlab => ?_, fun lab d mid rest hlab hd hmid => ?_,
    fun s c h => ?_⟩
  · rcases (Extract.isLabel_iff lab).mp hlab with h | h | h | h | h <;>
      subst h <;> decide
  · have h1 := Extract.matchPat1At_form lab d (mid ++ Extract.tagClose ++ rest)
      hlab hd (Extract.hasCloseNoNL_append rest hmid)
    unfold Extract.extractAnswer Extract.extract_answer_from_json
    rw [Extract.searchPat1_head h1]
  · unfold Extract.extractAnswer Extract.extract_answer_from_json
    rw [h]

/-- C3 amended, concrete witness discharging the hypotheses. -/
theorem C3_amended_extractor_forms_witness :
    Extract.extractAnswer
      (Extract.tagOpen ++ 'C' :: '.' :: (" so".data ++ Extract.tagClose ++ [])) =
        some 'C' :=
  C3_amended_extractor_forms.2.1 'C' '.' " so".data [] (by decide) (by decide)
    (by decide)

namespace Preview

/-- An attempt record as written into `initial_answers` by `three_times.py`
and read back by `three_times_preview.py`: `attempt_number`, and the values
of `answer`, `finish_reason` and `error` (each `null`/absent for the other
outcome). -/
structure Attempt where
  attempt_number : Nat
  answer : Option (List Char)
  finish_reason : Option (List Char)
  error : Option (List Char)
deriving Repr, DecidableEq

/-- Python f-string interpolation of a value that is either a string or
`None`: `f"{None}"` is the text `None`. -/
def pyStr : Option (List Char) → List Char
  | none => "None".data
  | some s => s

/-- One block `\nAttempt {n}:\n{answer}\n` appended to `formatted_attempts`
by the loop in `reason_over_attempts`. -/
def formatAttempt (a : Attempt) : List Char :=
  "\nAttempt ".data ++ (toString a.attempt_number).data ++ ":\n".data ++
    pyStr a.answer ++ "\n".data

/-- The `formatted_attempts` string interpolated into the consensus prompt by
`reason_over_attempts` in `three_times_preview.py`. -/
def formatted_attempts (attempts : List Attempt) : List Char :=
  (attempts.map formatAttempt).flatten

/-- The state of a task's description file as examined by `main` in
`three_times_preview.py`: missing on disk, unreadable (read or JSON error),
or parsed with its `attempts` list. -/
inductive DescriptionFile
  | missing
  | unreadable
  | parsed (attempts : List Attempt)
deriving Repr, DecidableEq

/-- Whether `main` in `three_times_preview.py` adds the task to
`items_to_process` — exactly the tasks for which `reason_over_attempts`
(the Consensus Reasoner call) is subsequently invoked via `process_batch`. -/
def previewSelects : DescriptionFile → Bool
  | .missing => false
  | .unreadable => false
  | .parsed attempts => !attempts.isEmpty

end Preview

/-- C2 counterexample: a task whose three attempts all failed (each record
has an error and `null` raw text) is still selected for the Consensus
Reasoner by `main` — `previewSelects` is `true`, so `reason_over_attempts`
is invoked — and the reasoning prompt is built from the failed attempts,
interpolating the text `None` for each. This contradicts the claim that the
Reasoner is never invoked and no prompt is built in that case. -/
theorem C2_counterexample :
    Preview.previewSelects (.parsed
      [⟨1, none, none, some "error 1".data⟩,
       ⟨2, none, none, some "error 2".data⟩,
       ⟨3, none, none, some "error 3".data⟩]) = true ∧
    Preview.formatted_attempts
      [⟨1, none, none, some "error 1".data⟩,
       ⟨2, none, none, some "error 2".data⟩,
       ⟨3, none, none, some "error 3".data⟩] =
      "\nAttempt 1:\nNone\n\nAttempt 2:\nNone\n\nAttempt 3:\nNone\n".data := by
  constructor
  · rfl
  · rfl

/-- C2 amended: `main` skips the Reasoner only when the description file is
missing, unreadable, or its attempts list is empty; when all attempts failed
but their records are present (non-empty list), the Reasoner is still
invoked, with the text `None` interpolated for each failed attempt. -/
theorem C2_amended_reasoner_invoked_on_all_failed
    (attempts : List Preview.Attempt) (hne : attempts ≠ [])
    (hfail : ∀ a ∈ attempts, a.answer = none) :
    Preview.previewSelects (.parsed attempts) = true ∧
    Preview.formatted_attempts attempts =
      (attempts.map (fun a => "\nAttempt ".data ++
        (toString a.attempt_number).data ++ ":\n".data ++ "None".data ++
        "\n".data)).flatten ∧
    Preview.previewSelects (.parsed []) = false ∧
    Preview.previewSelects .missing = false ∧
    Preview.previewSelects .unreadable = false := by
  refine ⟨?_, ?_, rfl, rfl, rfl⟩
  · simp [Preview.previewSelects, hne]
  · unfold Preview.formatted_attempts
    congr 1
    apply List.map_congr_left
    intro a ha
    rw [Preview.formatAttempt, hfail a ha]
    rfl

/-- C2 amended, concrete witness discharging the hypotheses. -/
theorem C2_amended_witness :
    Preview.previewSelects (.parsed [⟨1, none, none, some "boom".data⟩]) =
      true :=
  (C2_amended_reasoner_invoked_on_all_failed
    [⟨1, none, none, some "boom".data⟩] (by decide)
    (by intro a ha; simp at ha; rw [ha])).1

/-- C4 counterexample: with one successful and one failed attempt, the
prompt's `formatted_attempts` contains a block for the failed attempt
(`Attempt 2:\nNone`), so a failed attempt does contribute content to the
prompt, contradicting the claim that it is constructed from only the
successful attempts. -/
theorem C4_counterexample :
    Preview.formatted_attempts
      [⟨1, some "The answer is A because of the sign".data,
          some "stop".data, none⟩,
       ⟨2, none, none, some "timeout".data⟩] =
      ("\nAttempt 1:\nThe answer is A because of the sign\n" ++
        "\nAttempt 2:\nNone\n").data := by
  rfl

/-- C4 amended: the prompt is constructed from all attempts, successful or
failed, in order: each attempt contributes the block
`\nAttempt {n}:\n{text}\n` at its ordinal position, where the text is the
attempt's raw text verbatim for a successful attempt and the placeholder
`None` for a failed one. -/
theorem C4_amended_prompt_from_all_attempts :
    (∀ (pre post : List Preview.Attempt) (a : Preview.Attempt),
      Preview.formatted_attempts (pre ++ a :: post) =
        Preview.formatted_attempts pre ++
          ("\nAttempt ".data ++ (toString a.attempt_number).data ++
            ":\n".data ++ Preview.pyStr a.answer ++ "\n".data) ++
          Preview.formatted_attempts post) ∧
    (∀ t : List Char, Preview.pyStr (some t) = t) ∧
    Preview.pyStr none = "None".data := by
  refine ⟨fun pre post a => ?_, fun t => rfl, rfl⟩
  unfold Preview.formatted_attempts
  rw [List.map_append, List.map_cons, List.flatten_append, List.flatten_cons]
  rw [Preview.formatAttempt]
  simp [List.append_assoc]

namespace Sampler

/-- The outcome of one remote chat-completion call as observed inside
`process_question` in `three_times.py`: either the response (content and
finish reason) or the message of the exception raised (transport error,
endpoint error, or a file error while encoding frames). -/
inductive CallResult
  | ok (answer finish_reason : List Char)
  | exn (message : List Char)
deriving Repr, DecidableEq

/-- The response dict returned by `process_question` in `three_times.py`;
`none` fields model keys absent from the dict (`result.get` then yields
Python `None`). -/
structure Response where
  video_id : List Char
  answer : Option (List Char)
  finish_reason : Option (List Char)
  error : Option (List Char)
deriving Repr, DecidableEq

/-- The message of the `FileNotFoundError` raised (and immediately caught)
when `get_frame_paths` finds no frames for the task. -/
def noFramesMsg (video_id : List Char) : List Char :=
  "No frames found for video ID ".data ++ video_id

/-- `process_question` from `three_times.py`. `frames` stands for the paths
returned by `get_frame_paths`; `call` stands for the remote completion
outcome. Every exception — including the missing-evidence
`FileNotFoundError` — is caught by the surrounding `try` and captured as an
error response; nothing propagates past this boundary. -/
def process_question (video_id : List Char) (frames : List (List Char))
    (call : CallResult) : Response :=
  if frames.isEmpty then
    ⟨video_id, none, none, some (noFramesMsg video_id)⟩
  else
    match call with
    | .ok a f => ⟨video_id, some a, some f, none⟩
    | .exn m => ⟨video_id, none, none, some m⟩

/-- The combining loop of `main` in `three_times.py`:
`for i, result in enumerate(question_results, 1)` builds one attempt record
per response, numbering from `k` (the source starts at 1). -/
def combineAttempts (k : Nat) : List Response → List Preview.Attempt
  | [] => []
  | r :: rs => ⟨k, r.answer, r.finish_reason, r.error⟩ :: combineAttempts (k + 1) rs

/-- The Attempt Sampler: `main` issues one `process_question` call per
requested attempt for the same task (same video id, same frames) and
combines the responses, in order, into attempt records. -/
def sample (video_id : List Char) (frames : List (List Char))
    (calls : List CallResult) : List Preview.Attempt :=
  combineAttempts 1 (calls.map (process_question video_id frames))

theorem combineAttempts_length (k : Nat) (rs : List Response) :
    (combineAttempts k rs).length = rs.length := by
  induction rs generalizing k with
  | nil => rfl
  | cons r rs ih => simp [combineAttempts, ih]

theorem combineAttempts_getElem (k : Nat) (rs : List Response) (i : Nat)
    (r : Response) (h : rs[i]? = some r) :
    (combineAttempts k rs)[i]? =
      some ⟨k + i, r.answer, r.finish_reason, r.error⟩ := by
  induction rs generalizing k i with
  | nil => simp at h
  | cons r' rs ih =>
    cases i with
    | zero =>
      simp at h
      simp [combineAttempts, h]
    | succ j =>
      simp only [List.getElem?_cons_succ] at h
      have := ih (k + 1) j h
      simp only [combineAttempts, List.getElem?_cons_succ, this]
      congr 2
      omega

end Sampler

/-- C5: for every task and list of requested attempt calls, the Attempt
Sampler produces exactly one attempt record per requested call, in attempt
order (the record at index `i` is numbered `i + 1`): a successful remote
call yields a record carrying the response text and finish reason; a
failing call is captured as a record whose error field holds the failure
message; missing evidence is likewise captured as an error record, never
raised; no entry is dropped. -/
theorem C5_sampler_one_attempt_per_requested_call
    (video_id : List Char) (frames : List (List Char))
    (calls : List Sampler.CallResult) :
    (Sampler.sample video_id frames calls).length = calls.length ∧
    ∀ (i : Nat) (c : Sampler.CallResult), calls[i]? = some c →
      (frames = [] →
        (Sampler.sample video_id frames calls)[i]? =
          some ⟨i + 1, none, none, some (Sampler.noFramesMsg video_id)⟩) ∧
      (∀ a f, frames ≠ [] → c = .ok a f →
        (Sampler.sample video_id frames calls)[i]? =
          some ⟨i + 1, some a, some f, none⟩) ∧
      (∀ m, frames ≠ [] → c = .exn m →
        (Sampler.sample video_id frames calls)[i]? =
          some ⟨i + 1, none, none, some m⟩) := by
  constructor
  · unfold Sampler.sample
    rw [Sampler.combineAttempts_length, List.length_map]
  · intro i c hc
    have hmap : (calls.map (Sampler.process_question video_id frames))[i]? =
        some (Sampler.process_question video_id frames c) := by
      rw [List.getElem?_map, hc]
      rfl
    have hbase := Sampler.combineAttempts_getElem 1
      (calls.map (Sampler.process_question video_id frames)) i _ hmap
    rw [Nat.add_comm 1 i] at hbase
    refine ⟨fun hf => ?_, fun a f hf hok => ?_, fun m hf hex => ?_⟩
    · subst hf
      rw [Sampler.sample, hbase]
      simp [Sampler.process_question]
    · subst hok
      rw [Sampler.sample, hbase]
      have : frames.isEmpty = false := by
        cases frames with
        | nil => exact absurd rfl hf
        | cons x xs => rfl
      simp [Sampler.process_question, this]
    · subst hex
      rw [Sampler.sample, hbase]
      have : frames.isEmpty = false := by
        cases frames with
        | nil => exact absurd rfl hf
        | cons x xs => rfl
      simp [Sampler.process_question, this]

/-- C5, concrete witness discharging the hypotheses: one successful call,
one failed call, and the empty-evidence case. -/
theorem C5_sampler_witness :
    (Sampler.sample "00007".data ["f".data]
        [.ok "text".data "stop".data, .exn "boom".data])[1]? =
      some ⟨2, none, none, some "boom".data⟩ :=
  ((C5_sampler_one_attempt_per_requested_call "00007".data
      ["f".data]
      [.ok "text".data "stop".data, .exn "boom".data]).2 1
    (.exn "boom".data) (by decide)).2.2 "boom".data (by decide) rfl

namespace Gaps

/-- Contents of one sink file as the scan observes them: loading the JSON
either raises (read or parse error) or yields a record whose `answer` text
is given. -/
inductive FileContent
  | jsonError
  | jsonOk (answer_text : List Char)
deriving Repr, DecidableEq

/-- One file of the sink folder: its name and contents. -/
structure SinkFile where
  name : List Char
  content : FileContent
deriving Repr, DecidableEq

/-- `json_file.name.split('_')[0]`: the identifier prefix of the file name
(the whole name when it contains no underscore). -/
def fileId (f : SinkFile) : List Char := f.name.takeWhile (fun c => c != '_')

/-- Whitespace stripped by Python `int()`. -/
def isPyWs (c : Char) : Bool :=
  c == ' ' || c == '\t' || c == '\n' || c == '\r' || c == '\x0b' || c == '\x0c'

/-- Decimal value of a digit list. -/
def digitsVal (ds : List Char) : Nat :=
  ds.foldl (fun n c => 10 * n + (c.toNat - '0'.toNat)) 0

/-- Python `int(s)`: strip surrounding whitespace, allow one optional sign,
then require a non-empty run of decimal digits; otherwise a `ValueError`
(modelled as `none`). -/
def pyInt (s : List Char) : Option Int :=
  let t := ((s.dropWhile isPyWs).reverse.dropWhile isPyWs).reverse
  match t with
  | '+' :: ds =>
    if ds.isEmpty then none
    else if ds.all Char.isDigit then some (digitsVal ds) else none
  | '-' :: ds =>
    if ds.isEmpty then none
    else if ds.all Char.isDigit then some (-(digitsVal ds : Int)) else none
  | ds =>
    if ds.isEmpty then none
    else if ds.all Char.isDigit then some (digitsVal ds) else none

/-- The warnings printed by `process_files`, tagged by kind. -/
inductive Warning
  | invalidId (name : List Char)
  | readError (name : List Char)
  | noAnswer (name : List Char)
deriving Repr, DecidableEq

/-- The loop state of `process_files`: accumulated `results`,
`processed_ids` (kept as the list of insertions; only membership matters)
and printed warnings. -/
structure ScanState where
  results : List (List Char × Char)
  processed : List Int
  warnings : List Warning
deriving Repr, DecidableEq

def initState : ScanState := ⟨[], [], []⟩

/-- The body of the per-file loop of `process_files` in
`extract_answers.py`: a non-numeric id prefix raises `ValueError`, caught
with a warning; an in-range id proceeds to load the JSON (errors caught with
a warning) and extract the answer (absence warned); an out-of-range numeric
id falls through the `if` with no action. -/
def processFile (st : ScanState) (f : SinkFile) : ScanState :=
  match pyInt (fileId f) with
  | none => { st with warnings := st.warnings ++ [.invalidId f.name] }
  | some n =>
    if 1 ≤ n ∧ n ≤ 251 then
      match f.content with
      | .jsonError => { st with warnings := st.warnings ++ [.readError f.name] }
      | .jsonOk ans =>
        match Extract.extractAnswer ans with
        | some lab =>
          { st with results := st.results ++ [(fileId f, lab)],
                    processed := st.processed ++ [n] }
        | none => { st with warnings := st.warnings ++ [.noAnswer f.name] }
    else st

/-- `process_files` over the (sorted) file list of the sink folder. -/
def process_files (files : List SinkFile) : ScanState :=
  files.foldl processFile initState

/-- The configured expected id range `range(1, 252)`. -/
def expectedIds : List Int := (List.range 251).map (fun (k : ℕ) => (k : Int) + 1)

/-- `missing_ids = all_expected_ids - processed_ids`, the Gap Detector's
report. -/
def missing_ids (files : List SinkFile) : List Int :=
  expectedIds.filter (fun n => decide (n ∉ (process_files files).processed))

/-- What one file contributes to `results`. -/
def resDelta (f : SinkFile) : List (List Char × Char) :=
  match pyInt (fileId f) with
  | none => []
  | some n =>
    if 1 ≤ n ∧ n ≤ 251 then
      match f.content with
      | .jsonError => []
      | .jsonOk ans =>
        match Extract.extractAnswer ans with
        | some lab => [(fileId f, lab)]
        | none => []
    else []

/-- What one file contributes to `processed_ids`. -/
def procDelta (f : SinkFile) : List Int :=
  match pyInt (fileId f) with
  | none => []
  | some n =>
    if 1 ≤ n ∧ n ≤ 251 then
      match f.content with
      | .jsonError => []
      | .jsonOk ans =>
        match Extract.extractAnswer ans with
        | some _ => [n]
        | none => []
    else []

/-- What one file contributes to the warnings. -/
def warnDelta (f : SinkFile) : List Warning :=
  match pyInt (fileId f) with
  | none => [.invalidId f.name]
  | some n =>
    if 1 ≤ n ∧ n ≤ 251 then
      match f.content with
      | .jsonError => [.readError f.name]
      | .jsonOk ans =>
        match Extract.extractAnswer ans with
        | some _ => []
        | none => [.noAnswer f.name]
    else []

theorem processFile_eq (st : ScanState) (f : SinkFile) :
    processFile st f =
      ⟨st.results ++ resDelta f, st.processed ++ procDelta f,
        st.warnings ++ warnDelta f⟩ := by
  unfold processFile resDelta procDelta warnDelta
  cases hp : pyInt (fileId f) with
  | none => simp
  | some n =>
    dsimp only
    by_cases hr : 1 ≤ n ∧ n ≤ 251
    · rw [if_pos hr, if_pos hr, if_pos hr, if_pos hr]
      cases hc : f.content with
      | jsonError => simp
      | jsonOk ans =>
        cases he : Extract.extractAnswer ans with
        | some lab => simp [he]
        | none => simp [he]
    · rw [if_neg hr, if_neg hr, if_neg hr, if_neg hr]
      simp

theorem foldl_processFile_eq (files : List SinkFile) (st : ScanState) :
    files.foldl processFile st =
      ⟨st.results ++ (files.map resDelta).flatten,
        st.processed ++ (files.map procDelta).flatten,
        st.warnings ++ (files.map warnDelta).flatten⟩ := by
  induction files generalizing st with
  | nil => simp
  | cons f fs ih =>
    rw [List.foldl_cons, ih, processFile_eq]
    simp [List.append_assoc]

/-- A sink file constitutes a Result with a successfully parsed label for
id `n`: its name's id prefix parses to `n`, its JSON loads, and the Answer
Extractor finds a label in its answer text. -/
def fileYieldsLabel (f : SinkFile) (n : Int) : Prop :=
  pyInt (fileId f) = some n ∧
    ∃ ans lab, f.content = .jsonOk ans ∧ Extract.extractAnswer ans = some lab

theorem mem_procDelta_iff (f : SinkFile) (n : Int) :
    n ∈ procDelta f ↔ fileYieldsLabel f n ∧ 1 ≤ n ∧ n ≤ 251 := by
  unfold procDelta fileYieldsLabel
  cases hp : pyInt (fileId f) with
  | none => simp
  | some m =>
    dsimp only
    by_cases hr : 1 ≤ m ∧ m ≤ 251
    · rw [if_pos hr]
      cases hc : f.content with
      | jsonError => simp
      | jsonOk ans =>
        dsimp only
        cases he : Extract.extractAnswer ans with
        | some lab =>
          simp only [he, List.mem_singleton, Option.some_inj,
            Gaps.FileContent.jsonOk.injEq]
          constructor
          · intro hnm
            subst hnm
            exact ⟨⟨rfl, ans, lab, rfl, he⟩, hr⟩
          · rintro ⟨⟨hm, _⟩, _⟩
            exact hm.symm
        | none =>
          simp only [he, List.not_mem_nil, false_iff, not_and]
          rintro ⟨hm, ans', lab, hc', he'⟩
          rw [Gaps.FileContent.jsonOk.injEq] at hc'
          subst hc'
          rw [he] at he'
          cases he'
    · rw [if_neg hr]
      simp only [List.not_mem_nil, false_iff, not_and]
      rintro ⟨hm, _⟩ h1 h251
      have hmn : m = n := Option.some.inj hm
      subst hmn
      exact hr ⟨h1, h251⟩

theorem mem_processed_iff (files : List SinkFile) (n : Int) :
    n ∈ (process_files files).processed ↔
      ∃ f ∈ files, n ∈ procDelta f := by
  unfold process_files
  rw [foldl_processFile_eq]
  simp only [initState, List.nil_append, List.mem_flatten, List.mem_map]
  constructor
  · rintro ⟨l, ⟨f, hf, rfl⟩, hn⟩
    exact ⟨f, hf, hn⟩
  · rintro ⟨f, hf, hn⟩
    exact ⟨procDelta f, ⟨f, hf, rfl⟩, hn⟩

theorem mem_expectedIds (n : Int) : n ∈ expectedIds ↔ 1 ≤ n ∧ n ≤ 251 := by
  unfold expectedIds
  rw [List.mem_map]
  constructor
  · rintro ⟨k, hk, rfl⟩
    rw [List.mem_range] at hk
    omega
  · intro h
    refine ⟨(n - 1).toNat, ?_, ?_⟩
    · rw [List.mem_range]
      omega
    · omega

end Gaps

/-- C6: for every sink state, the Gap Detector's missing set is exactly the
ids of the configured range 1..251 for which no sink file constitutes a
Result with a successfully parsed label — covering ids with no file, ids
whose file fails to load, and ids whose answer text yields no extractable
label — while every id with a parsed label is excluded. -/
theorem C6_missing_iff_no_parsed_label (files : List Gaps.SinkFile) (n : Int) :
    n ∈ Gaps.missing_ids files ↔
      1 ≤ n ∧ n ≤ 251 ∧ ¬ ∃ f ∈ files, Gaps.fileYieldsLabel f n := by
  unfold Gaps.missing_ids
  rw [List.mem_filter]
  rw [Gaps.mem_expectedIds]
  constructor
  · rintro ⟨⟨h1, h2⟩, hdec⟩
    rw [decide_eq_true_iff] at hdec
    refine ⟨h1, h2, fun ⟨f, hf, hy⟩ => hdec ?_⟩
    rw [Gaps.mem_processed_iff]
    exact ⟨f, hf, (Gaps.mem_procDelta_iff f n).mpr ⟨hy, h1, h2⟩⟩
  · rintro ⟨h1, h2, hno⟩
    refine ⟨⟨h1, h2⟩, decide_eq_true ?_⟩
    rw [Gaps.mem_processed_iff]
    rintro ⟨f, hf, hn⟩
    exact hno ⟨f, hf, ((Gaps.mem_procDelta_iff f n).mp hn).1⟩

/-- C7 counterexample: a sink containing the single file
`00300_result.json` — an out-of-range identifier — produces no warning at
all (the scan's warning list is empty), contradicting the claim that each
malformed identifier is reported as a warning. The id is indeed in neither
the success set nor the missing set. -/
theorem C7_counterexample :
    (Gaps.process_files
      [⟨"00300_result.json".data, .jsonOk "<answer>A</answer>".data⟩]).warnings
        = [] ∧
    (Gaps.process_files
      [⟨"00300_result.json".data, .jsonOk "<answer>A</answer>".data⟩]).processed
        = [] ∧
    (300 : Int) ∉ Gaps.missing_ids
      [⟨"00300_result.json".data, .jsonOk "<answer>A</answer>".data⟩] := by
  refine ⟨rfl, rfl, ?_⟩
  intro hmem
  have h := List.mem_of_mem_filter hmem
  rw [Gaps.mem_expectedIds] at h
  omega

/-- C7 amended: a file whose identifier prefix is non-numeric is reported as
a warning and contributes nothing else; a file whose identifier is numeric
but out of the expected range 1..251 is skipped silently, with no warning;
in both cases the identifier enters neither the success set (`results` /
`processed`) nor the missing set (which stays within 1..251), and the scan
continues over the remaining files unchanged. -/
theorem C7_amended_malformed_id_handling :
    (∀ (st : Gaps.ScanState) (f : Gaps.SinkFile),
      Gaps.pyInt (Gaps.fileId f) = none →
        Gaps.processFile st f =
          ⟨st.results, st.processed, st.warnings ++ [.invalidId f.name]⟩) ∧
    (∀ (st : Gaps.ScanState) (f : Gaps.SinkFile) (n : Int),
      Gaps.pyInt (Gaps.fileId f) = some n → ¬(1 ≤ n ∧ n ≤ 251) →
        Gaps.processFile st f = st) ∧
    (∀ (files : List Gaps.SinkFile) (n : Int),
      n ∈ Gaps.missing_ids files → 1 ≤ n ∧ n ≤ 251) ∧
    (∀ (pre post : List Gaps.SinkFile) (f : Gaps.SinkFile),
      (Gaps.pyInt (Gaps.fileId f) = none ∨
        ∃ n, Gaps.pyInt (Gaps.fileId f) = some n ∧ ¬(1 ≤ n ∧ n ≤ 251)) →
      (Gaps.process_files (pre ++ f :: post)).results =
          (Gaps.process_files (pre ++ post)).results ∧
        (Gaps.process_files (pre ++ f :: post)).processed =
          (Gaps.process_files (pre ++ post)).processed) := by
  refine ⟨fun st f h => ?_, fun st f n h hr => ?_, fun files n h => ?_,
    fun pre post f hmal => ?_⟩
  · unfold Gaps.processFile
    rw [h]
  · unfold Gaps.processFile
    rw [h]
    dsimp only
    rw [if_neg hr]
  · exact (Gaps.mem_expectedIds n).mp (List.mem_of_mem_filter h)
  · have hres : Gaps.resDelta f = [] := by
      rcases hmal with h | ⟨n, h, hr⟩
      · unfold Gaps.resDelta
        rw [h]
      · unfold Gaps.resDelta
        rw [h]
        dsimp only
        rw [if_neg hr]
    have hproc : Gaps.procDelta f = [] := by
      rcases hmal with h | ⟨n, h, hr⟩
      · unfold Gaps.procDelta
        rw [h]
      · unfold Gaps.procDelta
        rw [h]
        dsimp only
        rw [if_neg hr]
    constructor
    · unfold Gaps.process_files
      rw [Gaps.foldl_processFile_eq, Gaps.foldl_processFile_eq]
      simp [hres]
    · unfold Gaps.process_files
      rw [Gaps.foldl_processFile_eq, Gaps.foldl_processFile_eq]
      simp [hproc]

/-- C7 amended, concrete witness discharging the hypotheses: a non-numeric
identifier yields exactly one invalid-id warning and nothing else. -/
theorem C7_amended_witness :
    Gaps.processFile Gaps.initState ⟨"abc.json".data, .jsonError⟩ =
      ⟨[], [], [.invalidId "abc.json".data]⟩ :=
  C7_amended_malformed_id_handling.1 Gaps.initState
    ⟨"abc.json".data, .jsonError⟩ (by decide)

namespace Backfill

/-- The result dict of `process_question` in `fill_gaps.py`: a successful
call's `{answer, finish_reason}`, or a caught exception's `{error}`; the
skip path returns the empty dict, modelled as `none` (falsy under `main`'s
`if result:` write guard). -/
inductive FGResult
  | ok (answer finish_reason : List Char)
  | err (message : List Char)
deriving Repr, DecidableEq

/-- Observable outcome of one `process_question` call in `fill_gaps.py`:
the returned dict, whether the evidence was loaded (`get_frame_paths`
reached), and whether a remote inference call was issued. -/
structure FGOutcome where
  result : Option FGResult
  loaded_evidence : Bool
  made_call : Bool
deriving Repr, DecidableEq

/-- The body of `process_question` past the skip guard: load the frames
(an empty list raises `FileNotFoundError`, caught as an error dict before
any call), then issue the remote call and return or capture its outcome. -/
def runQuestion (video_id : List Char) (frames : List (List Char))
    (call : Sampler.CallResult) : FGOutcome :=
  if frames.isEmpty then
    ⟨some (.err (Sampler.noFramesMsg video_id)), true, false⟩
  else
    match call with
    | .ok a f => ⟨some (.ok a f), true, true⟩
    | .exn m => ⟨some (.err m), true, true⟩

/-- `process_question` from `fill_gaps.py`: when a `video_ids` set is
configured and the id is not in it, return `{}` before loading any evidence
or issuing any call. -/
def process_question (video_ids : Option (List (List Char)))
    (video_id : List Char) (frames : List (List Char))
    (call : Sampler.CallResult) : FGOutcome :=
  match video_ids with
  | some ids =>
    if video_id ∉ ids then ⟨none, false, false⟩
    else runQuestion video_id frames call
  | none => runQuestion video_id frames call

/-- The outcome of one row of `main`'s loop in `fill_gaps.py`: the result
file written for the row, if any, plus the evidence/call flags. -/
structure MainStep where
  written : Option (List Char × FGResult)
  loaded_evidence : Bool
  made_call : Bool
deriving Repr, DecidableEq

/-- One row of `main`'s loop: rows outside `video_ids_to_process` are
skipped (`continue`) before `process_question` is even called; otherwise
the call's result is written to `{video_id}_result.json` only when the
returned dict is non-empty. -/
def main_step (video_ids_to_process : Option (List (List Char)))
    (video_id : List Char) (frames : List (List Char))
    (call : Sampler.CallResult) : MainStep :=
  match video_ids_to_process with
  | some ids =>
    if video_id ∉ ids then ⟨none, false, false⟩
    else
      let o := process_question (some ids) video_id frames call
      ⟨o.result.map (fun r => (video_id ++ "_result.json".data, r)),
        o.loaded_evidence, o.made_call⟩
  | none =>
    let o := process_question none video_id frames call
    ⟨o.result.map (fun r => (video_id ++ "_result.json".data, r)),
      o.loaded_evidence, o.made_call⟩

end Backfill

/-- C8: a backfill run restricted to an allow-list issues no remote call,
loads no evidence, and writes no Result for any task id outside the
allow-list — both the processor's own guard and `main`'s loop guard skip the
id before anything happens. -/
theorem C8_backfill_allowlist_skips_outside_ids
    (ids : List (List Char)) (video_id : List Char)
    (frames : List (List Char)) (call : Sampler.CallResult)
    (h : video_id ∉ ids) :
    Backfill.process_question (some ids) video_id frames call =
      ⟨none, false, false⟩ ∧
    Backfill.main_step (some ids) video_id frames call =
      ⟨none, false, false⟩ := by
  constructor
  · unfold Backfill.process_question
    dsimp only
    rw [if_pos h]
  · unfold Backfill.main_step
    dsimp only
    rw [if_pos h]

/-- C8, concrete witness discharging the hypothesis: a backfill restricted
to ids 00003 and 00006 does nothing for id 00010. -/
theorem C8_backfill_witness :
    Backfill.main_step (some ["00003".data, "00006".data]) "00010".data
      ["a".data] (.ok "t".data "stop".data) =
      ⟨none, false, false⟩ :=
  (C8_backfill_allowlist_skips_outside_ids ["00003".data, "00006".data]
    "00010".data ["a".data] (.ok "t".data "stop".data)
    (by decide)).2

namespace Dispatcher

/-- Progress of one submitted task with respect to the semaphore-guarded
region (`async with self.semaphore` wrapping the remote call in
`AsyncGPT4VProcessor` of `three_times.py` and in the reasoners). -/
inductive Phase
  | waiting
  | inflight
  | done
deriving Repr, DecidableEq

/-- A system state of a run with `N` submitted tasks: the semaphore's
internal permit counter and each task's phase. -/
structure DState (N : Nat) where
  count : Nat
  phase : Fin N → Phase

/-- Initial state: `Semaphore(max_concurrent_requests)` holds `K` permits
and every task awaits admission. -/
def initState (N K : Nat) : DState N :=
  ⟨K, fun _ => .waiting⟩

/-- One step of the cooperative (asyncio) interleaving, modelling
`asyncio.Semaphore`: a waiting task acquires a permit only when one is free
and its remote call becomes in flight, or an in-flight task's call
completes and releases its permit. There is no other transition: a waiting
task that finds no free permit remains suspended in the state, never
dropped. -/
inductive Step (N : Nat) : DState N → DState N → Prop
  | acquire {s : DState N} (i : Fin N) :
      s.phase i = .waiting → 0 < s.count →
      Step N s ⟨s.count - 1, Function.update s.phase i .inflight⟩
  | release {s : DState N} (i : Fin N) :
      s.phase i = .inflight →
      Step N s ⟨s.count + 1, Function.update s.phase i .done⟩

/-- States reachable within one run. -/
inductive Reachable (N K : Nat) : DState N → Prop
  | init : Reachable N K (initState N K)
  | step {s s' : DState N} : Reachable N K s → Step N s s' → Reachable N K s'

/-- The number of remote calls currently in flight. -/
def inflightCount {N : Nat} (s : DState N) : Nat :=
  (Finset.univ.filter (fun i => s.phase i = Phase.inflight)).card

theorem reachable_invariant {N K : Nat} {s : DState N}
    (h : Reachable N K s) : inflightCount s + s.count = K := by
  induction h with
  | init =>
    simp [inflightCount, initState]
  | step hr hstep ih =>
    cases hstep with
    | acquire i hw hc =>
      rename_i s
      have hni : i ∉ Finset.univ.filter (fun j => s.phase j = Phase.inflight) := by
        simp [hw]
      have hins :
          Finset.univ.filter
              (fun j => Function.update s.phase i Phase.inflight j =
                Phase.inflight) =
            insert i (Finset.univ.filter
              (fun j => s.phase j = Phase.inflight)) := by
        ext j
        by_cases hj : j = i
        · subst hj
          simp [Function.update_same]
        · simp [Function.update_noteq hj, hj]
      unfold inflightCount at ih ⊢
      dsimp only
      rw [hins, Finset.card_insert_of_not_mem hni]
      omega
    | release i hi =>
      rename_i s
      have hmem : i ∈ Finset.univ.filter (fun j => s.phase j = Phase.inflight) := by
        simp [hi]
      have hers :
          Finset.univ.filter
              (fun j => Function.update s.phase i Phase.done j =
                Phase.inflight) =
            (Finset.univ.filter
              (fun j => s.phase j = Phase.inflight)).erase i := by
        ext j
        by_cases hj : j = i
        · subst hj
          simp [Function.update_same]
        · simp [Function.update_noteq hj, hj]
      have hpos :
          0 < (Finset.univ.filter (fun j => s.phase j = Phase.inflight)).card :=
        Finset.card_pos.mpr ⟨i, hmem⟩
      unfold inflightCount at ih ⊢
      dsimp only
      rw [hers, Finset.card_erase_of_mem hmem]
      omega

end Dispatcher

/-- C9: for every configured cap `K ≥ 1` and workload of `N` submitted
tasks, in every reachable state of the interleaved execution the number of
remote calls issued and not yet completed is at most `K`; moreover a task
waiting for a permit is suspended, never dropped: no step moves it to
`done` without passing through `inflight`. -/
theorem C9_dispatcher_never_exceeds_cap (N K : Nat) (hK : 1 ≤ K)
    {s : Dispatcher.DState N} (h : Dispatcher.Reachable N K s) :
    Dispatcher.inflightCount s ≤ K ∧
    ∀ {s' : Dispatcher.DState N}, Dispatcher.Step N s s' →
      ∀ i : Fin N, s.phase i = .waiting → s'.phase i ≠ .done := by
  constructor
  · have := Dispatcher.reachable_invariant h
    omega
  · intro s' hstep i hw
    cases hstep with
    | acquire j hjw hc =>
      by_cases hij : i = j
      · subst hij
        simp [Function.update_same]
      · simp [Function.update_noteq hij, hw]
    | release j hji =>
      have hij : i ≠ j := by
        intro he
        rw [he, hji] at hw
        cases hw
      simp [Function.update_noteq hij, hw]

/-- C9, concrete witness discharging the hypotheses: with `K = 1` and two
tasks, the state after one acquisition stays within the cap. -/
theorem C9_dispatcher_witness :
    Dispatcher.inflightCount
      ⟨(Dispatcher.initState 2 1).count - 1,
        Function.update (Dispatcher.initState 2 1).phase 0 .inflight⟩ ≤ 1 :=
  (C9_dispatcher_never_exceeds_cap 2 1 (by decide)
    (Dispatcher.Reachable.step Dispatcher.Reachable.init
      (Dispatcher.Step.acquire 0 rfl (by decide)))).1

namespace Reasoner

/-- A JSON object modelled as an association list, so that the presence or
absence of a key is explicit. -/
def Record := List (List Char × List Char)

/-- The keys of a record. -/
def recKeys (d : Record) : List (List Char) := d.map Prod.fst

/-- The dict returned by `reason_over_description` in `reasoner.py`: on
success `{video_id, answer, finish_reason}`, on a caught exception
`{video_id, error}`. -/
def reason_over_description (video_id : List Char)
    (call : Sampler.CallResult) : Record :=
  match call with
  | .ok answer finish =>
    [("video_id".data, video_id), ("answer".data, answer),
      ("finish_reason".data, finish)]
  | .exn m => [("video_id".data, video_id), ("error".data, m)]

/-- The dict returned by `reason_over_attempts` in `three_times_preview.py`
— the same key schema as `reason_over_description`, built from the
aggregation call's outcome. -/
def reason_over_attempts_result (video_id : List Char)
    (call : Sampler.CallResult) : Record :=
  match call with
  | .ok answer finish =>
    [("video_id".data, video_id), ("answer".data, answer),
      ("finish_reason".data, finish)]
  | .exn m => [("video_id".data, video_id), ("error".data, m)]

/-- `{k: v for k, v in result.items() if k != 'video_id'}` from the saving
loops of `reasoner.py` and `three_times_preview.py`. -/
def strip_video_id (d : Record) : Record :=
  d.filter (fun kv => kv.1 != "video_id".data)

/-- The record persisted to `final_answers/{video_id}_result.json` by
`main` in `reasoner.py`. -/
def result_to_save (video_id : List Char) (call : Sampler.CallResult) :
    Record :=
  strip_video_id (reason_over_description video_id call)

/-- The record persisted by `main` in `three_times_preview.py`. -/
def preview_result_to_save (video_id : List Char)
    (call : Sampler.CallResult) : Record :=
  strip_video_id (reason_over_attempts_result video_id call)

/-- The output path `f"{video_id}_result.json"`: the id is carried in the
file name. -/
def savedFileName (video_id : List Char) : List Char :=
  video_id ++ "_result.json".data

theorem recKeys_save_ok (vid a f : List Char) :
    recKeys (result_to_save vid (.ok a f)) =
      ["answer".data, "finish_reason".data] := rfl

theorem recKeys_save_exn (vid m : List Char) :
    recKeys (result_to_save vid (.exn m)) = ["error".data] := rfl

theorem recKeys_preview_save_ok (vid a f : List Char) :
    recKeys (preview_result_to_save vid (.ok a f)) =
      ["answer".data, "finish_reason".data] := rfl

theorem recKeys_preview_save_exn (vid m : List Char) :
    recKeys (preview_result_to_save vid (.exn m)) = ["error".data] := rfl

end Reasoner

/-- C10: every Result record persisted by the Consensus Reasoner stage —
both `reasoner.py` and `three_times_preview.py` — contains either the
response keys (`answer` and `finish_reason`) or the `error` key, never
both, and never contains the `video_id` key, which is stripped before the
write; the id survives only in the saved file's name. -/
theorem C10_saved_record_shape (video_id : List Char)
    (call : Sampler.CallResult) :
    ("video_id".data ∉ Reasoner.recKeys
        (Reasoner.result_to_save video_id call) ∧
      "video_id".data ∉ Reasoner.recKeys
        (Reasoner.preview_result_to_save video_id call)) ∧
    (("answer".data ∈ Reasoner.recKeys
          (Reasoner.result_to_save video_id call) ∧
        "finish_reason".data ∈ Reasoner.recKeys
          (Reasoner.result_to_save video_id call) ∧
        "error".data ∉ Reasoner.recKeys
          (Reasoner.result_to_save video_id call)) ∨
      ("error".data ∈ Reasoner.recKeys
          (Reasoner.result_to_save video_id call) ∧
        "answer".data ∉ Reasoner.recKeys
          (Reasoner.result_to_save video_id call) ∧
        "finish_reason".data ∉ Reasoner.recKeys
          (Reasoner.result_to_save video_id call))) ∧
    (("answer".data ∈ Reasoner.recKeys
          (Reasoner.preview_result_to_save video_id call) ∧
        "finish_reason".data ∈ Reasoner.recKeys
          (Reasoner.preview_result_to_save video_id call) ∧
        "error".data ∉ Reasoner.recKeys
          (Reasoner.preview_result_to_save video_id call)) ∨
      ("error".data ∈ Reasoner.recKeys
          (Reasoner.preview_result_to_save video_id call) ∧
        "answer".data ∉ Reasoner.recKeys
          (Reasoner.preview_result_to_save video_id call) ∧
        "finish_reason".data ∉ Reasoner.recKeys
          (Reasoner.preview_result_to_save video_id call))) := by
  cases call with
  | ok answer finish =>
    rw [Reasoner.recKeys_save_ok, Reasoner.recKeys_preview_save_ok]
    exact ⟨⟨by decide, by decide⟩, Or.inl ⟨by decide, by decide, by decide⟩,
      Or.inl ⟨by decide, by decide, by decide⟩⟩
  | exn m =>
    rw [Reasoner.recKeys_save_exn, Reasoner.recKeys_preview_save_exn]
    exact ⟨⟨by decide, by decide⟩, Or.inr ⟨by decide, by decide, by decide⟩,
      Or.inr ⟨by decide, by decide, by decide⟩⟩
